import Mathlib

/-!
Verification of the AiResearcherAssistant repository.

Shallow embedding of the three source files `src/knowledge_base.py`,
`src/main.py` and `src/paper_analyzer.py`.

Modelling conventions:
* A Python `dict` is an insertion-ordered association list
  `List (String × α)`; assignment `d[k] = v` replaces the value in place
  when the key is present (keeping its position) and appends otherwise,
  exactly as Python dicts behave.
* Wall-clock timestamps are natural numbers counting microseconds since
  the epoch.  `datetime.now().isoformat()` stores the full value; the
  `strftime` pattern at second granularity used for entry IDs is
  modelled by integer division by 1000000 (two instants in the same
  second format identically, two instants in different seconds differ).
  An ISO timestamp string compares exactly like its numeric value, so
  `Nat` order is the order of the stored strings.
* All `datetime.now()` calls made during one operation are modelled as
  a single instant `now`, passed to the operation as an argument; the
  clock between two operations is whatever the caller passes.
* Arbitrary Python content values are the inductive `PyVal`; the Python
  `str()` on them is `pyStr`, `.lower()` is `pyLower`, and the
  `needle in hay` substring test is `pyIn`.
-/

namespace AiResearcher

/-- Python values that can appear as knowledge-base content: strings,
integers and (possibly nested) dicts. -/
inductive PyVal where
  | str (s : String)
  | int (n : Int)
  | dict (fields : List (String × PyVal))

/-- Python `str.lower()` (ASCII case folding, which agrees with Python on
all the inputs appearing in this development). -/
def pyLower (s : String) : String := ⟨s.data.map Char.toLower⟩

mutual

/-- Python repr of a value, as used inside `str()` of a dict: strings get
single quotes, dict fields print as braced key-value items. -/
def pyRepr : PyVal → String
  | .str s => "\x27" ++ s ++ "\x27"
  | .int n => toString n
  | .dict fields => "\x7b" ++ pyReprFields fields ++ "\x7d"
termination_by v => sizeOf v

/-- The comma-separated quoted-key, repr-value items of a dict repr. -/
def pyReprFields : List (String × PyVal) → String
  | [] => ""
  | [(k, v)] => "\x27" ++ k ++ "\x27" ++ ": " ++ pyRepr v
  | (k, v) :: kv :: t =>
      "\x27" ++ k ++ "\x27" ++ ": " ++ pyRepr v ++ ", " ++ pyReprFields (kv :: t)
termination_by l => sizeOf l

end

/-- Python `str()` of a value: a top-level string prints without quotes,
anything else prints as its repr. -/
def pyStr : PyVal → String
  | .str s => s
  | v => pyRepr v

/-- Python substring membership `needle in hay` on character lists:
some suffix of the haystack starts with the needle. -/
def charsContain (needle : List Char) : List Char → Bool
  | [] => needle.isEmpty
  | c :: t => needle.isPrefixOf (c :: t) || charsContain needle t

/-- Python `needle in hay` on strings. -/
def pyIn (needle hay : String) : Bool := charsContain needle.data hay.data

/-- Lookup in an insertion-ordered dict (`d.get(k)` / `d[k]`). -/
def assocGet {α : Type} : List (String × α) → String → Option α
  | [], _ => none
  | (k2, v) :: t, k => if k2 = k then some v else assocGet t k

/-- Assignment in an insertion-ordered dict (`d[k] = v`): replace in
place when the key is present, append otherwise. -/
def assocSet {α : Type} : List (String × α) → String → α → List (String × α)
  | [], k, v => [(k, v)]
  | (k2, v2) :: t, k, v => if k2 = k then (k, v) :: t else (k2, v2) :: assocSet t k v

/-- A knowledge-base entry (`self.entries[entry_id]` in
`knowledge_base.py`): topic, content, and the two ISO timestamps. -/
structure Entry where
  topic : String
  content : PyVal
  created_at : Nat
  last_modified : Nat


/-- The in-memory state of `KnowledgeBase`: the `self.entries` dict. -/
abbrev KB := List (String × Entry)

/-- The strftime pattern %Y%m%d_%H%M%S second-granularity time component of
an entry ID, modelled as the decimal second count. -/
def fmtSeconds (now : Nat) : String := toString (now / 1000000)

/-- Model of `KnowledgeBase.add_entry`: builds the ID `f"\x7btopic\x7d_\x7btimestamp\x7d"`,
stores the new entry under it (overwriting any entry already at that
key), and returns the ID together with the new store. -/
def add_entry (kb : KB) (topic : String) (content : PyVal) (now : Nat) : String × KB :=
  let entry_id := topic ++ "_" ++ fmtSeconds now
  (entry_id, assocSet kb entry_id ⟨topic, content, now, now⟩)

/-- Model of `KnowledgeBase.get_entry`: pure in-memory lookup. -/
def get_entry (kb : KB) (entry_id : String) : Option Entry :=
  assocGet kb entry_id

/-- Model of `KnowledgeBase.update_entry`: `False` and no change when the ID is
absent; otherwise replaces the entry content, bumps `last_modified`
to the current time and returns `True` with the new store. -/
def update_entry (kb : KB) (entry_id : String) (content : PyVal) (now : Nat) : Bool × KB :=
  match assocGet kb entry_id with
  | none => (false, kb)
  | some e => (true, assocSet kb entry_id { e with content := content, last_modified := now })

/-- One element of the list returned by `KnowledgeBase.search`: the dict
`\x7b"id": entry_id, **entry\x7d`, i.e. the entry fields plus an `id` key. -/
structure SearchResult where
  id : String
  topic : String
  content : PyVal
  created_at : Nat
  last_modified : Nat


/-- The search-result record built for a matching entry. -/
def mkSearchResult (entry_id : String) (e : Entry) : SearchResult :=
  ⟨entry_id, e.topic, e.content, e.created_at, e.last_modified⟩

/-- Model of `KnowledgeBase.search`: linear scan in insertion order, keeping the
entries whose lowercased `str(content)` contains the lowercased query. -/
def search (kb : KB) (query : String) : List SearchResult :=
  match kb with
  | [] => []
  | (entry_id, e) :: t =>
      if pyIn (pyLower query) (pyLower (pyStr e.content)) then
        mkSearchResult entry_id e :: search t query
      else
        search t query

/-- A paper record appended by `AIResearcher.add_paper`: the dict
`\x7b**paper_info, "added_at": datetime.now()\x7d`, modelled as the callers
`paper_info` fields paired with the added-at timestamp. -/
structure PaperRec where
  info : List (String × PyVal)
  added_at : Nat

/-- A note record appended by `AIResearcher.add_note`: content plus a
creation timestamp. -/
structure NoteRec where
  content : String
  created_at : Nat

/-- A value of the `self.research_topics` dict in `main.py`: description,
creation timestamp, and the append-only paper and note lists. -/
structure TopicRec where
  description : String
  created_at : Nat
  papers : List PaperRec
  notes : List NoteRec

/-- The `self.research_topics` dict of `AIResearcher` (the `start_time`
and never-touched `knowledge_base` fields of the class play no part in
any operation and are omitted). -/
abbrev Topics := List (String × TopicRec)

/-- Model of `AIResearcher.add_research_topic`: assigns a fresh record with empty
paper and note lists to `research_topics[topic]`, overwriting any
existing record at that name. -/
def add_research_topic (ts : Topics) (topic description : String) (now : Nat) : Topics :=
  assocSet ts topic ⟨description, now, [], []⟩

/-- Model of `AIResearcher.add_paper`: raises `ValueError(f"Topic \x7btopic\x7d not
found")` when the topic is untracked (the state is untouched, since the
raise happens before any mutation); otherwise appends one paper record
carrying the added-at timestamp. -/
def add_paper (ts : Topics) (topic : String) (paper_info : List (String × PyVal))
    (now : Nat) : Except String Topics :=
  match assocGet ts topic with
  | none => .error ("Topic " ++ topic ++ " not found")
  | some r => .ok (assocSet ts topic { r with papers := r.papers ++ [⟨paper_info, now⟩] })

/-- Model of `AIResearcher.add_note`: same not-found failure as `add_paper`;
otherwise appends one note record with content and creation time. -/
def add_note (ts : Topics) (topic : String) (note : String)
    (now : Nat) : Except String Topics :=
  match assocGet ts topic with
  | none => .error ("Topic " ++ topic ++ " not found")
  | some r => .ok (assocSet ts topic { r with notes := r.notes ++ [⟨note, now⟩] })

/-- The dict returned by `PaperAnalyzer.analyze_paper`: a timestamp and
fixed empty skeleton fields. -/
structure Analysis where
  timestamp : Nat
  key_findings : List String
  methodology : String
  conclusions : String
  citations : List (List (String × PyVal))
  topics : List String

/-- Model of `PaperAnalyzer.analyze_paper`: unimplemented placeholder returning
the timestamped skeleton record, independent of the input text. -/
def analyze_paper (paper_content : String) (now : Nat) : Analysis :=
  ⟨now, [], "", "", [], []⟩

/-- Model of `PaperAnalyzer.extract_citations`: placeholder returning the empty
list for every input. -/
def extract_citations (paper_content : String) : List (List (String × PyVal)) :=
  []

/-- Model of `PaperAnalyzer.summarize_paper`: placeholder returning the empty
string for every input text and every `max_length`. -/
def summarize_paper (paper_content : String) (max_length : Option Nat) : String :=
  ""

/-- Model of `PaperAnalyzer.identify_key_concepts`: placeholder returning the
empty list for every input. -/
def identify_key_concepts (paper_content : String) : List String :=
  []

/-- Store invariant of the knowledge base: every entry was last modified
at or after its creation. -/
def kbInv (kb : KB) : Prop :=
  ∀ p ∈ kb, p.2.created_at ≤ p.2.last_modified

/-! ### Helper lemmas about the insertion-ordered dict -/

theorem assocGet_assocSet_self {α : Type} (l : List (String × α)) (k : String) (v : α) :
    assocGet (assocSet l k v) k = some v := by
  induction l with
  | nil => simp [assocSet, assocGet]
  | cons p t ih =>
      obtain ⟨k2, v2⟩ := p
      by_cases h : k2 = k <;> simp [assocSet, assocGet, h, ih]

theorem assocGet_assocSet_ne {α : Type} (l : List (String × α)) (k k2 : String) (v : α)
    (h : k2 ≠ k) : assocGet (assocSet l k v) k2 = assocGet l k2 := by
  have hk : k ≠ k2 := Ne.symm h
  induction l with
  | nil => simp [assocSet, assocGet, hk]
  | cons p t ih =>
      obtain ⟨k3, v3⟩ := p
      by_cases h3 : k3 = k
      · subst h3
        simp [assocSet, assocGet, hk]
      · simp [assocSet, assocGet, h3, ih]

theorem mem_assocSet {α : Type} {l : List (String × α)} {k : String} {v : α}
    {p : String × α} (hp : p ∈ assocSet l k v) : p ∈ l ∨ p = (k, v) := by
  induction l with
  | nil => simpa [assocSet] using hp
  | cons q t ih =>
      obtain ⟨k2, v2⟩ := q
      by_cases h : k2 = k
      · simp [assocSet, h] at hp
        rcases hp with h1 | h1
        · exact Or.inr (by simp [h1])
        · exact Or.inl (List.mem_cons_of_mem _ h1)
      · simp [assocSet, h] at hp
        rcases hp with h1 | h1
        · exact Or.inl (by simp [h1])
        · rcases ih h1 with h2 | h2
          · exact Or.inl (List.mem_cons_of_mem _ h2)
          · exact Or.inr h2

theorem assocGet_mem {α : Type} {l : List (String × α)} {k : String} {v : α}
    (h : assocGet l k = some v) : (k, v) ∈ l := by
  induction l with
  | nil => simp [assocGet] at h
  | cons q t ih =>
      obtain ⟨k2, v2⟩ := q
      by_cases h2 : k2 = k
      · subst h2
        simp [assocGet] at h
        simp [h]
      · simp [assocGet, h2] at h
        exact List.mem_cons_of_mem _ (ih h)

theorem length_assocSet_of_isSome {α : Type} (l : List (String × α)) (k : String) (v : α)
    (h : (assocGet l k).isSome = true) : (assocSet l k v).length = l.length := by
  induction l with
  | nil => simp [assocGet] at h
  | cons q t ih =>
      obtain ⟨k2, v2⟩ := q
      by_cases h2 : k2 = k
      · simp [assocSet, h2]
      · simp [assocGet, h2] at h
        simp [assocSet, h2, ih h]

theorem charsContain_nil (hay : List Char) : charsContain [] hay = true := by
  cases hay <;> simp [charsContain, List.isPrefixOf, List.isEmpty]

/-! ### Claim theorems -/

/-- C1: for every topic string and content value, `add_entry(topic,
content)` followed by `get_entry` on the returned ID yields an entry
(not `None`) whose content equals the input content and whose
`created_at` equals `last_modified`. -/
theorem add_then_get (kb : KB) (topic : String) (content : PyVal) (now : Nat) :
    ∃ e : Entry,
      get_entry (add_entry kb topic content now).2 (add_entry kb topic content now).1 = some e
      ∧ e.content = content
      ∧ e.created_at = e.last_modified := by
  refine ⟨⟨topic, content, now, now⟩, ?_, rfl, rfl⟩
  simp [get_entry, add_entry, assocGet_assocSet_self]

/-- C2: `update_entry(entry_id, content)` returns `True` exactly when the
ID is present; on success (under a clock that advanced strictly since
the entry was last written) the content is replaced and `last_modified`
moves strictly forward; on failure the store is unchanged. -/
theorem update_entry_spec (kb : KB) (entry_id : String) (c : PyVal) (now : Nat) :
    ((update_entry kb entry_id c now).1 = true ↔ (get_entry kb entry_id).isSome = true)
    ∧ (∀ e : Entry, get_entry kb entry_id = some e → e.last_modified < now →
        get_entry (update_entry kb entry_id c now).2 entry_id
          = some { e with content := c, last_modified := now }
        ∧ ∀ e2 : Entry,
            get_entry (update_entry kb entry_id c now).2 entry_id = some e2 →
            e2.content = c ∧ e.last_modified < e2.last_modified)
    ∧ ((update_entry kb entry_id c now).1 = false →
        (update_entry kb entry_id c now).2 = kb) := by
  unfold get_entry
  cases h : assocGet kb entry_id with
  | none =>
      refine ⟨by simp [update_entry, h], ?_, by simp [update_entry, h]⟩
      intro e he
      simp [h] at he
  | some e0 =>
      refine ⟨by simp [update_entry, h], ?_, by simp [update_entry, h]⟩
      intro e he hlt
      have he0 : e0 = e := by simpa [h] using he
      subst he0
      have hget : assocGet (update_entry kb entry_id c now).2 entry_id
          = some { e0 with content := c, last_modified := now } := by
        simp [update_entry, h, assocGet_assocSet_self]
      refine ⟨hget, ?_⟩
      intro e2 he2
      rw [hget] at he2
      cases he2
      exact ⟨rfl, hlt⟩

/-- Witness for C2 at a concrete store: one entry written at time
1000000, updated at time 2000000. -/
theorem update_entry_spec_witness :
    get_entry (update_entry
        [("AI Ethics_1", Entry.mk "AI Ethics" (.str "old") 1000000 1000000)]
        "AI Ethics_1" (.str "new") 2000000).2 "AI Ethics_1"
      = some (Entry.mk "AI Ethics" (.str "new") 1000000 2000000) :=
  ((update_entry_spec
      [("AI Ethics_1", Entry.mk "AI Ethics" (.str "old") 1000000 1000000)]
      "AI Ethics_1" (.str "new") 2000000).2.1
    (Entry.mk "AI Ethics" (.str "old") 1000000 1000000) rfl (by decide)).1

/-- C8: a successful `update_entry` changes only the targeted entry
content and `last_modified`; its topic and `created_at`, and every
other entry of the store, are unchanged. -/
theorem update_entry_frame (kb : KB) (entry_id : String) (c : PyVal) (now : Nat)
    (e : Entry) (h : get_entry kb entry_id = some e) :
    (update_entry kb entry_id c now).1 = true
    ∧ get_entry (update_entry kb entry_id c now).2 entry_id
        = some (Entry.mk e.topic c e.created_at now)
    ∧ ∀ other, other ≠ entry_id →
        get_entry (update_entry kb entry_id c now).2 other = get_entry kb other := by
  unfold get_entry at h ⊢
  refine ⟨by simp [update_entry, h], ?_, ?_⟩
  · simp [update_entry, h, assocGet_assocSet_self]
  · intro other hne
    simp [update_entry, h, assocGet_assocSet_ne _ _ _ _ hne]

/-- Witness for C8 at a concrete two-entry store: updating the first
entry leaves the second lookup unchanged. -/
theorem update_entry_frame_witness :
    get_entry (update_entry
        [("a_1", Entry.mk "a" (.str "x") 1000000 1000000),
         ("b_2", Entry.mk "b" (.str "y") 2000000 2000000)]
        "a_1" (.str "z") 3000000).2 "a_1"
      = some (Entry.mk "a" (.str "z") 1000000 3000000)
    ∧ get_entry (update_entry
        [("a_1", Entry.mk "a" (.str "x") 1000000 1000000),
         ("b_2", Entry.mk "b" (.str "y") 2000000 2000000)]
        "a_1" (.str "z") 3000000).2 "b_2"
      = get_entry
        [("a_1", Entry.mk "a" (.str "x") 1000000 1000000),
         ("b_2", Entry.mk "b" (.str "y") 2000000 2000000)] "b_2" :=
  have h := update_entry_frame
    [("a_1", Entry.mk "a" (.str "x") 1000000 1000000),
     ("b_2", Entry.mk "b" (.str "y") 2000000 2000000)]
    "a_1" (.str "z") 3000000 (Entry.mk "a" (.str "x") 1000000 1000000) rfl
  ⟨h.2.1, h.2.2 "b_2" (by decide)⟩

/-- C3: `search(query)` returns exactly the entries whose lowercased
string form of the content contains the lowercased query, in the
insertion order of the backing map; on the two concrete entries of the
spec example, `search("ethics")` returns exactly the first entry. -/
theorem search_spec (kb : KB) (query : String) :
    search kb query
      = (kb.filter fun p => pyIn (pyLower query) (pyLower (pyStr p.2.content))).map
          (fun p => mkSearchResult p.1 p.2)
    ∧ search (add_entry
        (add_entry [] "AI Ethics" (.str "Research on ethics in AI") 1000000).2
        "ML" (.str "Gradient descent") 2000000).2 "ethics"
      = [⟨"AI Ethics_1", "AI Ethics", .str "Research on ethics in AI", 1000000, 1000000⟩] := by
  constructor
  · induction kb with
    | nil => rfl
    | cons p t ih =>
        obtain ⟨entry_id, e⟩ := p
        by_cases h : pyIn (pyLower query) (pyLower (pyStr e.content)) = true
        · simp [search, List.filter_cons, h, ih]
        · simp only [Bool.not_eq_true] at h
          simp [search, List.filter_cons, h, ih]
  · rfl

/-- C10: `search` with the empty query returns every entry of the store,
in insertion order, each record carrying the extra `id` field equal to
the entry key alongside the entry fields. -/
theorem search_empty_query (kb : KB) :
    search kb "" = kb.map fun p => mkSearchResult p.1 p.2 := by
  induction kb with
  | nil => rfl
  | cons p t ih =>
      obtain ⟨entry_id, e⟩ := p
      have hmatch : pyIn (pyLower "") (pyLower (pyStr e.content)) = true := by
        show charsContain [] (pyLower (pyStr e.content)).data = true
        exact charsContain_nil _
      simp [search, hmatch, ih]

/-- C4: the invariant `created_at ≤ last_modified` holds for every entry
and is preserved by the mutating operations `add_entry` and
`update_entry` whenever the clock is at or after every recorded
creation time (`get_entry` and `search` take the store and return
results without producing a new store, so they preserve it by
construction). -/
theorem kb_inv_preserved (kb : KB) (topic : String) (content : PyVal)
    (entry_id : String) (c : PyVal) (now : Nat)
    (hinv : kbInv kb)
    (hnow : ∀ p ∈ kb, p.2.created_at ≤ now) :
    kbInv (add_entry kb topic content now).2
    ∧ kbInv (update_entry kb entry_id c now).2 := by
  constructor
  · intro p hp
    rcases mem_assocSet hp with h | h
    · exact hinv p h
    · subst h
      exact Nat.le_refl now
  · cases h : assocGet kb entry_id with
    | none =>
        intro p hp
        simp only [update_entry, h] at hp
        exact hinv p hp
    | some e =>
        intro p hp
        simp only [update_entry, h] at hp
        rcases mem_assocSet hp with h2 | h2
        · exact hinv p h2
        · subst h2
          exact hnow (entry_id, e) (assocGet_mem h)

/-- Witness for C4 at a concrete one-entry store satisfying the
invariant, with the clock at 2000000. -/
theorem kb_inv_preserved_witness :
    kbInv (add_entry
        [("a_1", Entry.mk "a" (.str "x") 1000000 1000000)]
        "b" (.str "y") 2000000).2
    ∧ kbInv (update_entry
        [("a_1", Entry.mk "a" (.str "x") 1000000 1000000)]
        "a_1" (.str "z") 2000000).2 :=
  kb_inv_preserved [("a_1", Entry.mk "a" (.str "x") 1000000 1000000)]
    "b" (.str "y") "a_1" (.str "z") 2000000
    (by intro p hp; simp at hp; subst hp; decide)
    (by intro p hp; simp at hp; subst hp; decide)

/-- C5: `add_entry` returns the ID formed from the topic, an underscore
and the wall-clock time at second granularity; two adds with the same
topic within the same second produce the same ID, and the second
silently overwrites the first (lookup of the shared ID yields the
second entry and the store does not grow). -/
theorem add_entry_id_collision (kb kb2 : KB) (topic : String) (content c1 c2 : PyVal)
    (now t1 t2 : Nat) (h : t1 / 1000000 = t2 / 1000000) :
    (add_entry kb topic content now).1 = topic ++ "_" ++ fmtSeconds now
    ∧ (add_entry kb2 topic c1 t1).1 = (add_entry kb2 topic c2 t2).1
    ∧ get_entry (add_entry (add_entry kb2 topic c1 t1).2 topic c2 t2).2
        (add_entry kb2 topic c1 t1).1 = some (Entry.mk topic c2 t2 t2)
    ∧ ((add_entry (add_entry kb2 topic c1 t1).2 topic c2 t2).2).length
        = ((add_entry kb2 topic c1 t1).2).length := by
  have hid : topic ++ "_" ++ fmtSeconds t1 = topic ++ "_" ++ fmtSeconds t2 := by
    rw [fmtSeconds, fmtSeconds, h]
  refine ⟨rfl, hid, ?_, ?_⟩
  · show assocGet (assocSet _ (topic ++ "_" ++ fmtSeconds t2) _)
        (topic ++ "_" ++ fmtSeconds t1) = _
    rw [hid]
    exact assocGet_assocSet_self _ _ _
  · apply length_assocSet_of_isSome
    show (assocGet (assocSet kb2 (topic ++ "_" ++ fmtSeconds t1) _)
        (topic ++ "_" ++ fmtSeconds t2)).isSome = true
    rw [← hid, assocGet_assocSet_self]
    rfl

/-- Witness for C5: two adds to topic `AI` at microsecond instants
1000000 and 1500000, both inside wall-clock second 1. -/
theorem add_entry_id_collision_witness :
    (add_entry [] "AI" (.str "first") 1000000).1
      = (add_entry [] "AI" (.str "second") 1500000).1
    ∧ get_entry (add_entry (add_entry [] "AI" (.str "first") 1000000).2
        "AI" (.str "second") 1500000).2
        (add_entry [] "AI" (.str "first") 1000000).1
      = some (Entry.mk "AI" (.str "second") 1500000 1500000)
    ∧ ((add_entry (add_entry [] "AI" (.str "first") 1000000).2
        "AI" (.str "second") 1500000).2).length
      = ((add_entry [] "AI" (.str "first") 1000000).2).length :=
  have h := add_entry_id_collision [] [] "AI" (.str "c") (.str "first") (.str "second")
    0 1000000 1500000 (by decide)
  ⟨h.2.1, h.2.2.1, h.2.2.2⟩

/-- C6: `add_paper` and `add_note` raise the not-found error on an
untracked topic (the error is raised before any mutation, so the
caller keeps the unchanged state); on a tracked topic each appends
exactly one record, growing the corresponding list by one and leaving
every other topic unchanged. -/
theorem add_paper_add_note_spec (ts : Topics) (topic : String)
    (paper_info : List (String × PyVal)) (note : String) (now : Nat) :
    (assocGet ts topic = none →
      add_paper ts topic paper_info now = .error ("Topic " ++ topic ++ " not found")
      ∧ add_note ts topic note now = .error ("Topic " ++ topic ++ " not found"))
    ∧ (∀ r : TopicRec, assocGet ts topic = some r →
        ∃ ts1 ts2 : Topics,
          add_paper ts topic paper_info now = .ok ts1
          ∧ add_note ts topic note now = .ok ts2
          ∧ assocGet ts1 topic
              = some { r with papers := r.papers ++ [PaperRec.mk paper_info now] }
          ∧ assocGet ts2 topic
              = some { r with notes := r.notes ++ [NoteRec.mk note now] }
          ∧ (r.papers ++ [PaperRec.mk paper_info now]).length = r.papers.length + 1
          ∧ (r.notes ++ [NoteRec.mk note now]).length = r.notes.length + 1
          ∧ ∀ other, other ≠ topic →
              assocGet ts1 other = assocGet ts other
              ∧ assocGet ts2 other = assocGet ts other) := by
  constructor
  · intro h
    exact ⟨by simp [add_paper, h], by simp [add_note, h]⟩
  · intro r h
    refine ⟨assocSet ts topic { r with papers := r.papers ++ [PaperRec.mk paper_info now] },
      assocSet ts topic { r with notes := r.notes ++ [NoteRec.mk note now] },
      by simp [add_paper, h], by simp [add_note, h],
      assocGet_assocSet_self _ _ _, assocGet_assocSet_self _ _ _,
      by simp, by simp, ?_⟩
    intro other hne
    exact ⟨assocGet_assocSet_ne _ _ _ _ hne, assocGet_assocSet_ne _ _ _ _ hne⟩

/-- Witness for C6: the error case on the empty tracker and the success
case on a tracker holding one topic with one note already recorded. -/
theorem add_paper_add_note_spec_witness :
    add_paper ([] : Topics) "AI" [] 5 = .error "Topic AI not found"
    ∧ add_note ([] : Topics) "AI" "n" 5 = .error "Topic AI not found"
    ∧ ∃ ts1 ts2 : Topics,
        add_paper [("AI", TopicRec.mk "d" 1 [] [NoteRec.mk "n0" 1])] "AI" [] 5 = .ok ts1
        ∧ add_note [("AI", TopicRec.mk "d" 1 [] [NoteRec.mk "n0" 1])] "AI" "n" 5 = .ok ts2
        ∧ assocGet ts1 "AI"
            = some (TopicRec.mk "d" 1 [PaperRec.mk [] 5] [NoteRec.mk "n0" 1])
        ∧ assocGet ts2 "AI"
            = some (TopicRec.mk "d" 1 [] [NoteRec.mk "n0" 1, NoteRec.mk "n" 5])
        ∧ ([] ++ [PaperRec.mk [] 5]).length = List.length ([] : List PaperRec) + 1
        ∧ ([NoteRec.mk "n0" 1] ++ [NoteRec.mk "n" 5]).length = [NoteRec.mk "n0" 1].length + 1
        ∧ ∀ other, other ≠ "AI" →
            assocGet ts1 other = assocGet [("AI", TopicRec.mk "d" 1 [] [NoteRec.mk "n0" 1])] other
            ∧ assocGet ts2 other = assocGet [("AI", TopicRec.mk "d" 1 [] [NoteRec.mk "n0" 1])] other :=
  have herr := (add_paper_add_note_spec ([] : Topics) "AI" [] "n" 5).1 rfl
  have hok := (add_paper_add_note_spec [("AI", TopicRec.mk "d" 1 [] [NoteRec.mk "n0" 1])]
    "AI" [] "n" 5).2 (TopicRec.mk "d" 1 [] [NoteRec.mk "n0" 1]) rfl
  ⟨herr.1, herr.2, hok⟩

/-- C7: `add_research_topic` with a name that already exists fully
replaces the prior record: afterwards the description is the new one
and the paper and note lists are both empty, whatever the old record
held. -/
theorem add_research_topic_replaces (ts : Topics) (topic description : String) (now : Nat)
    (h : (assocGet ts topic).isSome = true) :
    assocGet (add_research_topic ts topic description now) topic
      = some (TopicRec.mk description now [] []) :=
  assocGet_assocSet_self ts topic (TopicRec.mk description now [] [])

/-- Witness for C7: re-adding topic `AI` over a record holding one paper
and one note resets both lists to empty. -/
theorem add_research_topic_replaces_witness :
    assocGet (add_research_topic
        [("AI", TopicRec.mk "old" 1 [PaperRec.mk [] 2] [NoteRec.mk "n" 3])]
        "AI" "new" 9) "AI"
      = some (TopicRec.mk "new" 9 [] []) :=
  add_research_topic_replaces
    [("AI", TopicRec.mk "old" 1 [PaperRec.mk [] 2] [NoteRec.mk "n" 3])]
    "AI" "new" 9 rfl

/-- C9: the four `PaperAnalyzer` operations are stubs: for every input
text, `max_length` and clock value, `extract_citations` returns `[]`,
`summarize_paper` returns `""`, `identify_key_concepts` returns `[]`,
and `analyze_paper` returns a record whose list fields are empty and
whose string fields are empty. -/
theorem paper_analyzer_stubs (text : String) (now : Nat) (max_length : Option Nat) :
    extract_citations text = []
    ∧ summarize_paper text max_length = ""
    ∧ identify_key_concepts text = []
    ∧ (analyze_paper text now).key_findings = []
    ∧ (analyze_paper text now).citations = []
    ∧ (analyze_paper text now).topics = []
    ∧ (analyze_paper text now).methodology = ""
    ∧ (analyze_paper text now).conclusions = "" :=
  ⟨rfl, rfl, rfl, rfl, rfl, rfl, rfl, rfl⟩

end AiResearcher
